import Mathlib

/-!
Verification of the rmw_zenoh core components against its specification.

Shallow embedding of:
- the attachment codec (src/rmw_zenoh_cpp/src/detail/attachment_helpers.cpp),
- the buffer pool (src/rmw_zenoh_cpp/src/detail/buffer_pool.cpp and the second
  copy in src/rmw_zenoh_cpp/src/detail/zenoh_utils.cpp),
- the events manager status bookkeeping (src/rmw_zenoh_cpp/src/detail/event.cpp),
- the subscription message queue callback (src/rmw_zenoh_cpp/src/impl/pubsub_impl.cpp),
- context and node shutdown (src/rmw_zenoh_cpp/src/detail/rmw_context_impl_s.cpp,
  src/rmw_zenoh_cpp/src/detail/rmw_node_data.cpp).

Machine integers: size_t is modelled as Nat reduced modulo 2^64 at each
arithmetic step that the C++ performs on size_t; int64_t fields that are only
stored and compared are modelled as Int.
-/

set_option maxHeartbeats 1000000

namespace RmwZenoh

/-! ## Attachment codec

The zenoh ext serializer is an external library; the repository code drives it
through three typed operations (serialize a string, serialize an int64,
serialize a byte sequence), and the deserializer mirrors them.  We model the
serialized stream at that record level: a list of typed records, exactly the
records the repository emits and consumes. -/

/-- One record of the zenoh ext serializer stream, as driven by
attachment_helpers.cpp: a length-prefixed string, a little-endian int64, or a
length-prefixed byte sequence. -/
inductive ZRecord where
  | str : String → ZRecord
  | i64 : Int → ZRecord
  | bytes : List Nat → ZRecord
  deriving DecidableEq, Repr

/-- The serialized attachment stream: the sequence of records in the zbytes. -/
abbrev ZStream := List ZRecord

/-- Model of zenoh deserialize of a string: succeeds iff the next record is a
string record. -/
def deserializeStr : ZStream → Except String (String × ZStream)
  | ZRecord.str s :: rest => Except.ok (s, rest)
  | _ => Except.error "failed to deserialize a string"

/-- Model of zenoh deserialize of an int64: succeeds iff the next record is an
int64 record. -/
def deserializeI64 : ZStream → Except String (Int × ZStream)
  | ZRecord.i64 n :: rest => Except.ok (n, rest)
  | _ => Except.error "failed to deserialize an int64"

/-- Model of zenoh deserialize of a byte sequence (vector or slice): succeeds
iff the next record is a bytes record. -/
def deserializeBytes : ZStream → Except String (List Nat × ZStream)
  | ZRecord.bytes b :: rest => Except.ok (b, rest)
  | _ => Except.error "failed to deserialize a byte sequence"

instance {ε α : Type} [DecidableEq ε] [DecidableEq α] : DecidableEq (Except ε α) :=
  fun x y =>
    match x, y with
    | Except.ok a, Except.ok b =>
      if h : a = b then isTrue (by rw [h])
      else isFalse (by intro hc; cases hc; exact h rfl)
    | Except.error a, Except.error b =>
      if h : a = b then isTrue (by rw [h])
      else isFalse (by intro hc; cases hc; exact h rfl)
    | Except.ok _, Except.error _ => isFalse (by intro hc; cases hc)
    | Except.error _, Except.ok _ => isFalse (by intro hc; cases hc)

/-- RMW_GID_STORAGE_SIZE from rmw/types.h. -/
def RMW_GID_STORAGE_SIZE : Nat := 16

/-- The C++ class AttachmentData (attachment_helpers.cpp): sequence number,
source timestamp, and the gid byte vector as stored in the object. -/
structure AttachmentData where
  sequence_number : Int
  source_timestamp : Int
  source_gid : List Nat
  deriving DecidableEq, Repr

/-- The gid-reversing constructor AttachmentData::AttachmentData(int64_t,
int64_t, const uint8_t[]) at attachment_helpers.cpp:30.
It pushes source_gid[RMW_GID_STORAGE_SIZE - 1 - i] for i = 0..15. -/
def AttachmentData.ofFields (sn ts : Int) (gid : List Nat) : AttachmentData :=
  { sequence_number := sn
    source_timestamp := ts
    source_gid :=
      (List.range RMW_GID_STORAGE_SIZE).map
        (fun i => gid.getD (RMW_GID_STORAGE_SIZE - 1 - i) 0) }

/-- AttachmentData::serialize_to_zbytes at attachment_helpers.cpp:50: emit the
three key/value record pairs in fixed order. -/
def AttachmentData.serialize_to_zbytes (a : AttachmentData) : ZStream :=
  [ZRecord.str "sequence_number", ZRecord.i64 a.sequence_number,
   ZRecord.str "source_timestamp", ZRecord.i64 a.source_timestamp,
   ZRecord.str "source_gid", ZRecord.bytes a.source_gid]

/-- The C++ decoding constructor AttachmentData::AttachmentData(const
zenoh::Bytes &) at attachment_helpers.cpp:62.  Reads the three tagged records
in order, throwing on a wrong tag or a failed deserialization; note that it
performs no length check on the decoded source_gid. -/
def AttachmentData.fromZBytes (attachment : ZStream) : Except String AttachmentData :=
  match deserializeStr attachment with
  | Except.error e => Except.error e
  | Except.ok (sequence_number_str, s1) =>
    if sequence_number_str ≠ "sequence_number" then
      Except.error "sequence_number is not found in the attachment."
    else
      match deserializeI64 s1 with
      | Except.error e => Except.error e
      | Except.ok (sn, s2) =>
        match deserializeStr s2 with
        | Except.error e => Except.error e
        | Except.ok (source_timestamp_str, s3) =>
          if source_timestamp_str ≠ "source_timestamp" then
            Except.error "source_timestamp is not found in the attachment."
          else
            match deserializeI64 s3 with
            | Except.error e => Except.error e
            | Except.ok (ts, s4) =>
              match deserializeStr s4 with
              | Except.error e => Except.error e
              | Except.ok (source_gid_str, s5) =>
                if source_gid_str ≠ "source_gid" then
                  Except.error "source_gid is not found in the attachment."
                else
                  match deserializeBytes s5 with
                  | Except.error e => Except.error e
                  | Except.ok (gid, _s6) =>
                    Except.ok
                      { sequence_number := sn, source_timestamp := ts, source_gid := gid }

/-- The C-API struct attachment_data_t (attachment_helpers.cpp): the gid is a
fixed 16-byte array, modelled as the list of its bytes. -/
structure attachment_data_t where
  sequence_number : Int
  source_timestamp : Int
  source_gid : List Nat
  deriving DecidableEq, Repr

/-- The copying constructor attachment_data_t::attachment_data_t(int64_t,
int64_t, const uint8_t[]) at attachment_helpers.cpp:87: memcpy of the 16 gid
bytes, no reversal. -/
def attachment_data_t.ofFields (sn ts : Int) (gid : List Nat) : attachment_data_t :=
  { sequence_number := sn
    source_timestamp := ts
    source_gid := gid.take RMW_GID_STORAGE_SIZE }

/-- The C-API decoding constructor attachment_data_t::attachment_data_t(const
z_loaned_bytes_t *) at attachment_helpers.cpp:117.  Reads the three tagged
records in order and, unlike the C++ decoder, rejects a source_gid whose
length differs from RMW_GID_STORAGE_SIZE.  (The return values of the string
deserializations are not checked in the C code; on a failed string read the
key cannot equal the expected literal, which we model as the tag-mismatch
error.) -/
def attachment_data_t.fromZBytes (attachment : ZStream) : Except String attachment_data_t :=
  match deserializeStr attachment with
  | Except.error e => Except.error e
  | Except.ok (key1, s1) =>
    if key1 ≠ "sequence_number" then
      Except.error "sequence_number is not found in the attachment."
    else
      match deserializeI64 s1 with
      | Except.error e => Except.error e
      | Except.ok (sn, s2) =>
        match deserializeStr s2 with
        | Except.error e => Except.error e
        | Except.ok (key2, s3) =>
          if key2 ≠ "source_timestamp" then
            Except.error "source_timestamp is not found in the attachment"
          else
            match deserializeI64 s3 with
            | Except.error e => Except.error e
            | Except.ok (ts, s4) =>
              match deserializeStr s4 with
              | Except.error e => Except.error e
              | Except.ok (key3, s5) =>
                if key3 ≠ "source_gid" then
                  Except.error "Invalid attachment: the key source_gid is not found"
                else
                  match deserializeBytes s5 with
                  | Except.error e => Except.error e
                  | Except.ok (gid, _s6) =>
                    if gid.length ≠ RMW_GID_STORAGE_SIZE then
                      Except.error "The length of source_gid mismatched."
                    else
                      Except.ok
                        { sequence_number := sn, source_timestamp := ts, source_gid := gid }

/-- A stream holding the three correctly tagged records: the shape the encoder
emits. -/
def taggedStream (sn ts : Int) (gid : List Nat) : ZStream :=
  [ZRecord.str "sequence_number", ZRecord.i64 sn,
   ZRecord.str "source_timestamp", ZRecord.i64 ts,
   ZRecord.str "source_gid", ZRecord.bytes gid]

/-! ## Buffer pool

Two copies of BufferPool exist in the sources: buffer_pool.cpp and a second
one in zenoh_utils.cpp.  Their allocate and deallocate bodies are identical;
their constructors differ in the handling of an empty environment value. -/

/-- Wraparound modulus of size_t (64-bit). -/
def SIZE_T_MOD : Nat := 2 ^ 64

/-- size_t addition, wrapping at 2^64 as the C++ unsigned arithmetic does. -/
def addSizeT (a b : Nat) : Nat := (a + b) % SIZE_T_MOD

/-- C atoll on the digit part: accumulate decimal digits, stop at the first
non-digit. -/
def atollDigits : List Char → Nat → Nat
  | c :: rest, acc =>
    if c.isDigit then atollDigits rest (10 * acc + (c.toNat - '0'.toNat)) else acc
  | [], acc => acc

/-- Model of C std::atoll: skip leading whitespace, optional sign, then
decimal digits; 0 when no digits are present. -/
def atoll (s : String) : Int :=
  match s.data.dropWhile Char.isWhitespace with
  | '-' :: rest => -(atollDigits rest 0 : Int)
  | '+' :: rest => (atollDigits rest 0 : Int)
  | cs => (atollDigits cs 0 : Int)

/-- Conversion of a (possibly negative) long long to size_t, as in the C++
assignment max_size_ = std::atoll(env_value). -/
def sizeTOfInt (i : Int) : Nat := (i % (SIZE_T_MOD : Int)).toNat

/-- DEFAULT_MAX_SIZE from buffer_pool.hpp: 16 * 1024 * 1024 bytes. -/
def DEFAULT_MAX_SIZE : Nat := 16 * 1024 * 1024

/-- The value rcutils_get_env reports for RMW_ZENOH_BUFFER_POOL_MAX_SIZE_BYTES:
none models a read error (rcutils_get_env returned an error string), some v
the read value; an unset variable is reported as some "". -/
abbrev EnvRead := Option String

/-- max_size_ as computed by the BufferPool constructor in buffer_pool.cpp:29:
the default is used only when reading the environment fails; otherwise
std::atoll of the value (so an unset variable, read as "", gives atoll "" = 0). -/
def bufferPoolCtorMaxSize (env : EnvRead) : Nat :=
  match env with
  | none => DEFAULT_MAX_SIZE
  | some env_value => sizeTOfInt (atoll env_value)

/-- max_size_ as computed by the BufferPool constructor in zenoh_utils.cpp:126:
same as buffer_pool.cpp but with an extra branch mapping the empty value to
the default. -/
def zenohUtilsCtorMaxSize (env : EnvRead) : Nat :=
  match env with
  | none => DEFAULT_MAX_SIZE
  | some env_value =>
    if env_value = "" then DEFAULT_MAX_SIZE else sizeTOfInt (atoll env_value)

/-- The BufferPool fields: buffers_ (the pooled buffers, represented by their
capacities, head = back of the vector, i.e. the most recently pushed), size_
and max_size_.  Buffer contents are irrelevant to the claims. -/
structure BufferPool where
  buffers : List Nat
  size : Nat
  maxSize : Nat
  deriving DecidableEq, Repr

/-- A freshly constructed pool: empty vector, size_ = 0, given cap. -/
def BufferPool.init (cap : Nat) : BufferPool :=
  { buffers := [], size := 0, maxSize := cap }

/-- BufferPool::allocate (buffer_pool.cpp:56 and zenoh_utils.cpp:155).
heapOk models whether the underlying rcutils allocate (empty-pool branch) or
reallocate (grow branch) call returns a non-null pointer.  The result is
some capacity for a returned buffer, none for the null buffer {}.
Mirrors the C++ exactly: in the empty-pool branch size_ is increased before
the heap allocation and is not rolled back when that allocation fails; in the
grow branch size_ is increased only after the reallocation succeeds; the
popped buffer is not pushed back on any failure path. -/
def BufferPool.allocate (s : BufferPool) (size : Nat) (heapOk : Bool) :
    Option Nat × BufferPool :=
  match s.buffers with
  | [] =>
    if addSizeT s.size size > s.maxSize then
      (none, s)
    else
      let s1 : BufferPool := { s with size := addSizeT s.size size }
      if heapOk then (some size, s1) else (none, s1)
  | b :: rest =>
    if b < size then
      let size_diff := size - b
      if addSizeT s.size size_diff > s.maxSize then
        (none, { s with buffers := rest })
      else if heapOk then
        (some size, { s with buffers := rest, size := addSizeT s.size size_diff })
      else
        (none, { s with buffers := rest })
    else
      (some b, { s with buffers := rest })

/-- BufferPool::deallocate (buffer_pool.cpp:96): push_back onto the pool
vector; nothing is freed and nothing else changes. -/
def BufferPool.deallocate (s : BufferPool) (cap : Nat) : BufferPool :=
  { s with buffers := cap :: s.buffers }

/-- A pool together with the capacities of the outstanding (allocated, not
yet released) buffers, to state the cap invariant over traces. -/
structure PoolModel where
  pool : BufferPool
  outstanding : List Nat
  deriving DecidableEq, Repr

/-- One client operation on the pool: an allocate call (with the heap
success outcome for that call) or a deallocate of the i-th outstanding
buffer. -/
inductive PoolOp where
  | alloc (size : Nat) (heapOk : Bool)
  | dealloc (i : Nat)
  deriving DecidableEq, Repr

/-- Effect of one operation on the pool and the outstanding set.  A dealloc
of an index that names no outstanding buffer is a no-op (clients only release
buffers they hold). -/
def PoolModel.step (m : PoolModel) (op : PoolOp) : PoolModel :=
  match op with
  | PoolOp.alloc size heapOk =>
    let r := m.pool.allocate size heapOk
    { pool := r.2
      outstanding :=
        match r.1 with
        | some c => c :: m.outstanding
        | none => m.outstanding }
  | PoolOp.dealloc i =>
    match m.outstanding[i]? with
    | some c =>
      { pool := m.pool.deallocate c, outstanding := m.outstanding.eraseIdx i }
    | none => m

/-- Run a trace of operations from a given model state. -/
def PoolModel.run (m : PoolModel) (ops : List PoolOp) : PoolModel :=
  ops.foldl PoolModel.step m

/-- The model of a freshly constructed pool with cap C and no outstanding
buffers. -/
def PoolModel.init (cap : Nat) : PoolModel :=
  { pool := BufferPool.init cap, outstanding := [] }

/-- Allocation sizes below 2^63: any size the C++ allocator can possibly
serve (allocations above PTRDIFF_MAX fail), so that the size_t additions in
allocate do not wrap. -/
def PoolOp.sizeBounded : PoolOp → Prop
  | PoolOp.alloc size _ => size < 2 ^ 63
  | PoolOp.dealloc _ => True

instance (op : PoolOp) : Decidable op.sizeBounded :=
  match op with
  | PoolOp.alloc size _ => inferInstanceAs (Decidable (size < 2 ^ 63))
  | PoolOp.dealloc _ => inferInstanceAs (Decidable True)

/-- The pool invariant: the tracked size_ never exceeds max_size_, and the
capacities of pooled plus outstanding buffers never exceed size_. -/
def PoolModel.Inv (m : PoolModel) : Prop :=
  m.pool.buffers.sum + m.outstanding.sum ≤ m.pool.size ∧ m.pool.size ≤ m.pool.maxSize

/-! ## Events manager status bookkeeping (event.cpp)

One status slot of EventsManager (rmw_zenoh_event_status_t together with the
parts of update_event_status and take_event_status that touch it).  The
header with the field declarations is not part of src/; the counters are
modelled as integers as in the data-model section of the spec.  The user
callback and wait-set notification do not touch the status fields. -/

/-- rmw_zenoh_event_status_t (counters and the changed flag; the data string
plays no role in the claims about counters). -/
structure EventStatus where
  total_count : Int
  total_count_change : Int
  current_count : Int
  current_count_change : Int
  changed : Bool
  deriving DecidableEq, Repr

/-- The zero-initialized status (event.cpp:58). -/
def EventStatus.init : EventStatus :=
  { total_count := 0, total_count_change := 0, current_count := 0,
    current_count_change := 0, changed := false }

/-- EventsManager::update_event_status (event.cpp:172) on one slot: add
max(0, delta) to the total counters, delta to the current counters, and set
changed to true unconditionally. -/
def EventStatus.update (s : EventStatus) (current_count_change : Int) : EventStatus :=
  { total_count := s.total_count + max 0 current_count_change
    total_count_change := s.total_count_change + max 0 current_count_change
    current_count := s.current_count + current_count_change
    current_count_change := s.current_count_change + current_count_change
    changed := true }

/-- EventsManager::take_event_status (event.cpp:151) on one slot: return the
snapshot and reset both change fields and changed. -/
def EventStatus.take (s : EventStatus) : EventStatus × EventStatus :=
  (s, { s with current_count_change := 0, total_count_change := 0, changed := false })

/-- One operation on a status slot. -/
inductive EventOp where
  | update (delta : Int)
  | take
  deriving DecidableEq, Repr

/-- Effect of one operation on the slot (take discards the snapshot). -/
def EventStatus.step (s : EventStatus) (op : EventOp) : EventStatus :=
  match op with
  | EventOp.update delta => s.update delta
  | EventOp.take => (s.take).2

/-- Run a sequence of update/take operations from a given slot state. -/
def EventStatus.run (s : EventStatus) (ops : List EventOp) : EventStatus :=
  ops.foldl EventStatus.step s

/-- Modelled from the spec (refinement reference): whether at least one
update occurred since the last take (or since initialization) in an
operation sequence; this is the predicate the changed flag actually tracks. -/
def updateSinceLastTake (ops : List EventOp) : Bool :=
  ops.foldl
    (fun _ op =>
      match op with
      | EventOp.update _ => true
      | EventOp.take => false)
    false

/-! ## Subscription message queue (pubsub_impl.cpp)

The per-subscription part of rmw_subscription_data_t::zn_sub_callback
(pubsub_impl.cpp:25): a bounded deque where push_front adds the newest
element at the front, and when the queue already holds queue_depth_ elements
the oldest element (the back) is popped first.  The callback logs a warning
on that drop; it raises no event of any kind. -/

/-- One subscription queue together with trace counters.  queue holds message
identifiers, head = front = newest, last = back = oldest.  drops counts
discarded oldest messages (each accompanied by a log warning in the code);
lostEvents counts MESSAGE_LOST events raised (the callback raises none);
pushes and takes count the operations performed. -/
structure SubQueue where
  queue : List Nat
  depth : Nat
  drops : Nat
  lostEvents : Nat
  pushes : Nat
  takes : Nat
  deriving DecidableEq, Repr

/-- A fresh queue of the given depth. -/
def SubQueue.init (depth : Nat) : SubQueue :=
  { queue := [], depth := depth, drops := 0, lostEvents := 0, pushes := 0, takes := 0 }

/-- The queue-push step of zn_sub_callback (pubsub_impl.cpp:46): when the
queue holds at least queue_depth_ elements, pop_back the oldest (with a log
warning, counted in drops) then push_front the new message.  No event is
raised on the drop. -/
def SubQueue.push (q : SubQueue) (m : Nat) : SubQueue :=
  if q.queue.length ≥ q.depth then
    { q with
      queue := m :: q.queue.dropLast
      drops := q.drops + 1
      pushes := q.pushes + 1 }
  else
    { q with queue := m :: q.queue, pushes := q.pushes + 1 }

/-- Modelled from the spec: the take operation of the subscription (outside
src/) pops the oldest element, the back of the deque, and reports
taken = false on an empty queue. -/
def SubQueue.take (q : SubQueue) : Option Nat × SubQueue :=
  match q.queue.getLast? with
  | none => (none, q)
  | some m =>
    (some m, { q with queue := q.queue.dropLast, takes := q.takes + 1 })

/-- One operation on the subscription queue. -/
inductive QueueOp where
  | push (m : Nat)
  | take
  deriving DecidableEq, Repr

/-- Effect of one operation on the queue state. -/
def SubQueue.step (q : SubQueue) (op : QueueOp) : SubQueue :=
  match op with
  | QueueOp.push m => q.push m
  | QueueOp.take => (q.take).2

/-- Run a sequence of pushes and takes from a given queue state. -/
def SubQueue.run (q : SubQueue) (ops : List QueueOp) : SubQueue :=
  ops.foldl SubQueue.step q

/-! ## Context and node shutdown (rmw_context_impl_s.cpp, rmw_node_data.cpp) -/

/-- rmw_ret_t outcomes relevant to shutdown. -/
inductive RmwRet where
  | Ok
  | Error
  deriving DecidableEq, Repr

/-- The NodeData state relevant to shutdown: the shutdown flag and whether
the liveliness token is still held (token_ is moved from by the undeclare
call even when that call fails). -/
structure NodeData where
  isShutdown : Bool
  token : Bool
  deriving DecidableEq, Repr

/-- NodeData::shutdown (rmw_node_data.cpp:391).  undeclareOk models the
result of the zenoh undeclare call.  If already shut down, return OK and
change nothing; otherwise move the token out and undeclare it, returning
ERROR without setting the flag when the undeclare fails. -/
def NodeData.shutdown (n : NodeData) (undeclareOk : Bool) : RmwRet × NodeData :=
  if n.isShutdown then
    (RmwRet.Ok, n)
  else if undeclareOk then
    (RmwRet.Ok, { n with isShutdown := true, token := false })
  else
    (RmwRet.Error, { n with token := false })

/-- The rmw_context_impl_s::Data state touched by shutdown: the node set, the
graph subscriber, the optional SHM provider, the shutdown flag and the
session. -/
structure ContextData where
  nodes : List NodeData
  graphSub : Bool
  shm : Option Unit
  isShutdown : Bool
  session : Option Unit
  deriving DecidableEq, Repr

/-- rmw_context_impl_s::Data::shutdown (rmw_context_impl_s.cpp:239).
oracle i models the undeclare result for the i-th node.  If already shut
down, return OK and change nothing.  Otherwise shut down every node (node
failures are logged and ignored), undeclare the graph subscriber, drop the
SHM provider, set the flag, and finally (outside the lock) reset the
session; the function returns RMW_RET_OK. -/
def ContextData.shutdown (s : ContextData) (oracle : Nat → Bool) : RmwRet × ContextData :=
  if s.isShutdown then
    (RmwRet.Ok, s)
  else
    (RmwRet.Ok,
      { nodes := s.nodes.enum.map (fun p => (NodeData.shutdown p.2 (oracle p.1)).2)
        graphSub := false
        shm := none
        isShutdown := true
        session := none })

/-! ## Theorems -/

/-! ### Helper lemmas: attachment codec -/

theorem deserializeStr_ok {ts : ZStream} {s : String} {rest : ZStream}
    (h : deserializeStr ts = Except.ok (s, rest)) : ts = ZRecord.str s :: rest := by
  match ts with
  | ZRecord.str a :: r => simp [deserializeStr] at h; simp [h.1, h.2]
  | [] | ZRecord.i64 _ :: _ | ZRecord.bytes _ :: _ => simp [deserializeStr] at h

theorem deserializeI64_ok {ts : ZStream} {n : Int} {rest : ZStream}
    (h : deserializeI64 ts = Except.ok (n, rest)) : ts = ZRecord.i64 n :: rest := by
  match ts with
  | ZRecord.i64 a :: r => simp [deserializeI64] at h; simp [h.1, h.2]
  | [] | ZRecord.str _ :: _ | ZRecord.bytes _ :: _ => simp [deserializeI64] at h

theorem deserializeBytes_ok {ts : ZStream} {b : List Nat} {rest : ZStream}
    (h : deserializeBytes ts = Except.ok (b, rest)) : ts = ZRecord.bytes b :: rest := by
  match ts with
  | ZRecord.bytes a :: r => simp [deserializeBytes] at h; simp [h.1, h.2]
  | [] | ZRecord.str _ :: _ | ZRecord.i64 _ :: _ => simp [deserializeBytes] at h

/-- A successful run of the C++ decoder forces the input stream to start with
the three correctly tagged records carrying the decoded values. -/
theorem fromZBytes_ok_shape (ts : ZStream) (d : AttachmentData)
    (h : AttachmentData.fromZBytes ts = Except.ok d) :
    ∃ rest,
      ts = taggedStream d.sequence_number d.source_timestamp d.source_gid ++ rest := by
  unfold AttachmentData.fromZBytes at h
  rcases hA : deserializeStr ts with e | ⟨k1, s1⟩ <;> rw [hA] at h <;> dsimp only at h
  · simp at h
  by_cases hk1 : k1 = "sequence_number"
  swap
  · simp [hk1] at h
  simp only [hk1, ne_eq, not_true_eq_false, if_false] at h
  rcases hB : deserializeI64 s1 with e | ⟨sn, s2⟩ <;> rw [hB] at h <;> dsimp only at h
  · simp at h
  rcases hC : deserializeStr s2 with e | ⟨k2, s3⟩ <;> rw [hC] at h <;> dsimp only at h
  · simp at h
  by_cases hk2 : k2 = "source_timestamp"
  swap
  · simp [hk2] at h
  simp only [hk2, ne_eq, not_true_eq_false, if_false] at h
  rcases hD : deserializeI64 s3 with e | ⟨tsp, s4⟩ <;> rw [hD] at h <;> dsimp only at h
  · simp at h
  rcases hE : deserializeStr s4 with e | ⟨k3, s5⟩ <;> rw [hE] at h <;> dsimp only at h
  · simp at h
  by_cases hk3 : k3 = "source_gid"
  swap
  · simp [hk3] at h
  simp only [hk3, ne_eq, not_true_eq_false, if_false] at h
  rcases hF : deserializeBytes s5 with e | ⟨gid, s6⟩ <;> rw [hF] at h <;> dsimp only at h
  · simp at h
  simp only [Except.ok.injEq] at h
  subst hk1 hk2 hk3
  refine ⟨s6, ?_⟩
  rw [deserializeStr_ok hA, deserializeI64_ok hB, deserializeStr_ok hC,
    deserializeI64_ok hD, deserializeStr_ok hE, deserializeBytes_ok hF, ← h]
  rfl

/-- A successful run of the C decoder forces the input stream to start with
the three correctly tagged records, and the decoded gid has length 16. -/
theorem c_fromZBytes_ok_shape (ts : ZStream) (d : attachment_data_t)
    (h : attachment_data_t.fromZBytes ts = Except.ok d) :
    (∃ rest,
      ts = taggedStream d.sequence_number d.source_timestamp d.source_gid ++ rest) ∧
    d.source_gid.length = RMW_GID_STORAGE_SIZE := by
  unfold attachment_data_t.fromZBytes at h
  rcases hA : deserializeStr ts with e | ⟨k1, s1⟩ <;> rw [hA] at h <;> dsimp only at h
  · simp at h
  by_cases hk1 : k1 = "sequence_number"
  swap
  · simp [hk1] at h
  simp only [hk1, ne_eq, not_true_eq_false, if_false] at h
  rcases hB : deserializeI64 s1 with e | ⟨sn, s2⟩ <;> rw [hB] at h <;> dsimp only at h
  · simp at h
  rcases hC : deserializeStr s2 with e | ⟨k2, s3⟩ <;> rw [hC] at h <;> dsimp only at h
  · simp at h
  by_cases hk2 : k2 = "source_timestamp"
  swap
  · simp [hk2] at h
  simp only [hk2, ne_eq, not_true_eq_false, if_false] at h
  rcases hD : deserializeI64 s3 with e | ⟨tsp, s4⟩ <;> rw [hD] at h <;> dsimp only at h
  · simp at h
  rcases hE : deserializeStr s4 with e | ⟨k3, s5⟩ <;> rw [hE] at h <;> dsimp only at h
  · simp at h
  by_cases hk3 : k3 = "source_gid"
  swap
  · simp [hk3] at h
  simp only [hk3, ne_eq, not_true_eq_false, if_false] at h
  rcases hF : deserializeBytes s5 with e | ⟨gid, s6⟩ <;> rw [hF] at h <;> dsimp only at h
  · simp at h
  by_cases hlen : gid.length = RMW_GID_STORAGE_SIZE
  swap
  · simp [hlen] at h
  simp only [hlen, ne_eq, not_true_eq_false, if_false, Except.ok.injEq] at h
  subst hk1 hk2 hk3
  refine ⟨⟨s6, ?_⟩, by rw [← h]; exact hlen⟩
  rw [deserializeStr_ok hA, deserializeI64_ok hB, deserializeStr_ok hC,
    deserializeI64_ok hD, deserializeStr_ok hE, deserializeBytes_ok hF, ← h]
  rfl

/-- The C++ decoder accepts the encoder output shape for a gid of any
length. -/
theorem fromZBytes_taggedStream (sn ts : Int) (gid : List Nat) :
    AttachmentData.fromZBytes (taggedStream sn ts gid) =
      Except.ok { sequence_number := sn, source_timestamp := ts, source_gid := gid } := by
  simp [AttachmentData.fromZBytes, taggedStream,
    deserializeStr, deserializeI64, deserializeBytes]

/-- The C decoder rejects the encoder output shape when the gid length is not
16. -/
theorem c_fromZBytes_taggedStream_badLen (sn ts : Int) (gid : List Nat)
    (hlen : gid.length ≠ RMW_GID_STORAGE_SIZE) :
    (attachment_data_t.fromZBytes (taggedStream sn ts gid)).isOk = false := by
  simp [attachment_data_t.fromZBytes, taggedStream,
    deserializeStr, deserializeI64, deserializeBytes, hlen, Except.isOk, Except.toBool]

/-! ### C1 -/

/-- C1: for every attachment A, the encoder emits exactly the three records
sequence_number (i64), source_timestamp (i64), source_gid (byte sequence) in
that fixed order, and decoding the encoder output reconstructs the same three
field values. -/
theorem C1_attachment_roundtrip (a : AttachmentData) :
    a.serialize_to_zbytes =
      taggedStream a.sequence_number a.source_timestamp a.source_gid ∧
    AttachmentData.fromZBytes a.serialize_to_zbytes = Except.ok a := by
  constructor
  · rfl
  · cases a with
    | mk sn ts gid =>
      simp [AttachmentData.fromZBytes, AttachmentData.serialize_to_zbytes,
        deserializeStr, deserializeI64, deserializeBytes]

/-! ### C2 -/

/-- C2 counterexample: the claim states that decoding an otherwise-valid
attachment whose source_gid has length 15 fails in every decoder of the
attachment format; but the C++ decoder (AttachmentData::AttachmentData(const
zenoh::Bytes &)) accepts it, returning the 15-byte gid unchanged. -/
theorem C2_counterexample :
    (List.replicate 15 (7 : Nat)).length = 15 ∧
    AttachmentData.fromZBytes (taggedStream 1 2 (List.replicate 15 7)) =
      Except.ok
        { sequence_number := 1, source_timestamp := 2,
          source_gid := List.replicate 15 7 } :=
  ⟨by decide, fromZBytes_taggedStream 1 2 (List.replicate 15 7)⟩

/-- C2 amended: the C-API decoder (attachment_data_t) fails whenever a field
tag is missing or mistyped or the decoded source_gid has length other than 16
(in particular lengths 15 and 17 fail); the C++ decoder (AttachmentData)
fails on any missing or mistyped field tag but performs no gid length check,
so an otherwise-valid attachment with gid length 15 or 17 decodes
successfully there. -/
theorem C2_amended_decoder_checks (sn ts : Int) (g : List Nat) (st : ZStream)
    (dC : attachment_data_t) (dCpp : AttachmentData) :
    (g.length ≠ RMW_GID_STORAGE_SIZE →
      (attachment_data_t.fromZBytes (taggedStream sn ts g)).isOk = false) ∧
    (attachment_data_t.fromZBytes st = Except.ok dC →
      (∃ rest,
        st = taggedStream dC.sequence_number dC.source_timestamp dC.source_gid ++ rest) ∧
      dC.source_gid.length = RMW_GID_STORAGE_SIZE) ∧
    (AttachmentData.fromZBytes st = Except.ok dCpp →
      ∃ rest,
        st = taggedStream dCpp.sequence_number dCpp.source_timestamp
          dCpp.source_gid ++ rest) ∧
    AttachmentData.fromZBytes (taggedStream sn ts g) =
      Except.ok { sequence_number := sn, source_timestamp := ts, source_gid := g } :=
  ⟨c_fromZBytes_taggedStream_badLen sn ts g,
   c_fromZBytes_ok_shape st dC,
   fromZBytes_ok_shape st dCpp,
   fromZBytes_taggedStream sn ts g⟩

/-- C2 witness: the amended theorem applied at concrete inputs, with its
hypotheses discharged: a 17-byte gid is rejected by the C decoder, a
successful C decode pins the tagged shape and the 16-byte gid length, and
the C++ decoder accepts a 17-byte gid. -/
theorem C2_amended_decoder_checks_witness :
    (attachment_data_t.fromZBytes (taggedStream 5 6 (List.replicate 17 1))).isOk
      = false ∧
    ((∃ rest,
        taggedStream 5 6 (List.replicate 16 1) =
          taggedStream
            (attachment_data_t.mk 5 6 (List.replicate 16 1)).sequence_number
            (attachment_data_t.mk 5 6 (List.replicate 16 1)).source_timestamp
            (attachment_data_t.mk 5 6 (List.replicate 16 1)).source_gid ++ rest) ∧
      (attachment_data_t.mk 5 6 (List.replicate 16 1)).source_gid.length =
        RMW_GID_STORAGE_SIZE) ∧
    AttachmentData.fromZBytes (taggedStream 5 6 (List.replicate 17 1)) =
      Except.ok
        { sequence_number := 5, source_timestamp := 6,
          source_gid := List.replicate 17 1 } := by
  refine ⟨?_, ?_, ?_⟩
  · exact (C2_amended_decoder_checks 5 6 (List.replicate 17 1) []
      (attachment_data_t.mk 0 0 []) (AttachmentData.mk 0 0 [])).1 (by decide)
  · exact (C2_amended_decoder_checks 5 6 (List.replicate 16 1)
      (taggedStream 5 6 (List.replicate 16 1))
      (attachment_data_t.mk 5 6 (List.replicate 16 1))
      (AttachmentData.mk 0 0 [])).2.1 (by decide)
  · exact (C2_amended_decoder_checks 5 6 (List.replicate 17 1) []
      (attachment_data_t.mk 0 0 []) (AttachmentData.mk 0 0 [])).2.2.2

/-! ### C9 -/

/-- Reversing a list by indexing from the top: the loop of the gid-copying
constructor in index form. -/
theorem map_range_getD_eq_reverse (g : List Nat) :
    (List.range g.length).map (fun i => g.getD (g.length - 1 - i) 0) = g.reverse := by
  induction g with
  | nil => rfl
  | cons a t ih =>
    have hlen : (a :: t).length = t.length + 1 := rfl
    rw [hlen, List.range_succ, List.map_append]
    have h1 :
        (List.range t.length).map (fun i => (a :: t).getD (t.length + 1 - 1 - i) 0) =
        (List.range t.length).map (fun i => t.getD (t.length - 1 - i) 0) := by
      apply List.map_congr_left
      intro i hi
      have hi2 : i < t.length := List.mem_range.mp hi
      have : t.length + 1 - 1 - i = (t.length - i - 1) + 1 := by omega
      rw [this]
      have : t.length - i - 1 = t.length - 1 - i := by omega
      simp [List.getD_cons_succ, this]
    rw [h1, ih]
    have h2 : (a :: t).getD (t.length + 1 - 1 - t.length) 0 = a := by
      have : t.length + 1 - 1 - t.length = 0 := by omega
      rw [this]; rfl
    simp [h2, List.reverse_cons]

/-- C9: the gid-reversing AttachmentData constructor stores the caller gid
with its byte order reversed (stored byte i equals g[15 - i], i.e. the stored
vector is the reverse of g), so the gid carried in the serialized attachment
is the byte-reverse of the gid supplied by the caller; the C-API
attachment_data_t constructor copies g unchanged. -/
theorem C9_gid_reversal (sn ts : Int) (g : List Nat) (h : g.length = 16) :
    (AttachmentData.ofFields sn ts g).source_gid = g.reverse ∧
    (∀ i, i < 16 →
      (AttachmentData.ofFields sn ts g).source_gid.getD i 0 = g.getD (15 - i) 0) ∧
    (attachment_data_t.ofFields sn ts g).source_gid = g ∧
    (AttachmentData.ofFields sn ts g).serialize_to_zbytes =
      taggedStream sn ts g.reverse := by
  have hrev : (AttachmentData.ofFields sn ts g).source_gid = g.reverse := by
    show (List.range RMW_GID_STORAGE_SIZE).map
        (fun i => g.getD (RMW_GID_STORAGE_SIZE - 1 - i) 0) = g.reverse
    rw [show RMW_GID_STORAGE_SIZE = g.length from h.symm]
    exact map_range_getD_eq_reverse g
  refine ⟨hrev, ?_, ?_, ?_⟩
  · intro i hi
    rw [hrev]
    rcases Nat.lt_or_ge i g.reverse.length with hlt | hge
    · rw [List.getD_eq_getElem _ _ hlt, List.getElem_reverse]
      have hb : g.length - 1 - i < g.length := by omega
      rw [List.getD_eq_getElem _ _ (by omega)]
      congr 1
      omega
    · rw [List.length_reverse, h] at hge
      omega
  · show g.take RMW_GID_STORAGE_SIZE = g
    rw [show RMW_GID_STORAGE_SIZE = g.length from h.symm]
    exact List.take_length g
  · rw [AttachmentData.serialize_to_zbytes, hrev]
    rfl

/-- C9 witness: the theorem applied to a concrete 16-byte gid. -/
theorem C9_gid_reversal_witness :
    ((List.range 16).length = 16) ∧
    (AttachmentData.ofFields 1 2 (List.range 16)).source_gid =
      (List.range 16).reverse :=
  ⟨by decide, (C9_gid_reversal 1 2 (List.range 16) (by decide)).1⟩

/-! ### Helper lemmas: buffer pool -/

/-- size_t addition does not wrap when both addends are below 2^63. -/
theorem addSizeT_eq_add {a b : Nat} (ha : a < 2 ^ 63) (hb : b < 2 ^ 63) :
    addSizeT a b = a + b := by
  unfold addSizeT SIZE_T_MOD
  apply Nat.mod_eq_of_lt
  calc a + b < 2 ^ 63 + 2 ^ 63 := Nat.add_lt_add ha hb
  _ = 2 ^ 64 := by norm_num

/-- Removing the i-th element of a Nat list takes away exactly its value from
the sum. -/
theorem sum_eraseIdx (l : List Nat) (i : Nat) (c : Nat) (h : l[i]? = some c) :
    c + (l.eraseIdx i).sum = l.sum := by
  induction l generalizing i with
  | nil => simp at h
  | cons a t ih =>
    cases i with
    | zero =>
      simp at h
      simp [List.eraseIdx, h]
    | succ j =>
      simp at h
      have := ih j h
      simp [List.eraseIdx]
      omega

/-- One step of the pool preserves the invariant and the cap, provided the
cap and the requested size fit in 63 bits (so that the size_t additions in
allocate do not wrap). -/
theorem PoolModel.step_inv (m : PoolModel) (op : PoolOp)
    (hmax : m.pool.maxSize < 2 ^ 63) (hop : op.sizeBounded) (h : m.Inv) :
    (m.step op).Inv ∧ (m.step op).pool.maxSize = m.pool.maxSize := by
  obtain ⟨hsum, hsize⟩ := h
  have hs63 : m.pool.size < 2 ^ 63 := lt_of_le_of_lt hsize hmax
  cases op with
  | dealloc i =>
    cases hg : m.outstanding[i]? with
    | none => simp [PoolModel.step, hg, PoolModel.Inv, hsum, hsize]
    | some c =>
      have hc : c + (m.outstanding.eraseIdx i).sum = m.outstanding.sum :=
        sum_eraseIdx m.outstanding i c hg
      refine ⟨⟨?_, ?_⟩, ?_⟩ <;>
        simp [PoolModel.step, hg, BufferPool.deallocate, hsize] <;> omega
  | alloc size heapOk =>
    have hsz : size < 2 ^ 63 := hop
    cases hb : m.pool.buffers with
    | nil =>
      rw [hb] at hsum
      simp only [List.sum_nil, Nat.zero_add] at hsum
      have hadd : addSizeT m.pool.size size = m.pool.size + size :=
        addSizeT_eq_add hs63 hsz
      simp only [PoolModel.step, BufferPool.allocate, hb, hadd, PoolModel.Inv]
      by_cases hcap : m.pool.maxSize < m.pool.size + size
      · simp [hcap, hb, hsum, hsize]
      · cases heapOk <;>
          (refine ⟨⟨?_, ?_⟩, ?_⟩ <;> simp [hcap, hb] <;> omega)
    | cons b rest =>
      rw [hb] at hsum
      simp only [List.sum_cons] at hsum
      simp only [PoolModel.step, BufferPool.allocate, hb, PoolModel.Inv]
      by_cases hlt : b < size
      · have hdiff : size - b < 2 ^ 63 := by omega
        have hadd : addSizeT m.pool.size (size - b) = m.pool.size + (size - b) :=
          addSizeT_eq_add hs63 hdiff
        simp only [hadd, hlt, if_true]
        by_cases hcap : m.pool.maxSize < m.pool.size + (size - b)
        · simp [hcap, hsize]
          omega
        · cases heapOk <;>
            (refine ⟨⟨?_, ?_⟩, ?_⟩ <;> simp [hcap, hsize] <;> omega)
      · refine ⟨⟨?_, ?_⟩, ?_⟩ <;> simp [hlt, hsize] <;> omega

/-- Running a bounded trace preserves the invariant and the cap. -/
theorem PoolModel.run_inv (ops : List PoolOp) (m : PoolModel)
    (hmax : m.pool.maxSize < 2 ^ 63) (hops : ∀ op ∈ ops, op.sizeBounded)
    (h : m.Inv) :
    (m.run ops).Inv ∧ (m.run ops).pool.maxSize = m.pool.maxSize := by
  induction ops generalizing m with
  | nil => exact ⟨h, rfl⟩
  | cons op rest ih =>
    have hop : op.sizeBounded := hops op (List.mem_cons_self op rest)
    have hrest : ∀ o ∈ rest, o.sizeBounded := fun o ho =>
      hops o (List.mem_cons_of_mem op ho)
    obtain ⟨h1, h2⟩ := PoolModel.step_inv m op hmax hop h
    have := ih (m.step op) (h2 ▸ hmax) hrest h1
    rw [PoolModel.run] at *
    simp only [List.foldl_cons]
    exact ⟨this.1, this.2.trans h2⟩

/-! ### C3 -/

/-- C3: the claim states that with the environment variable unset (read as
the empty string) both BufferPool constructions default the cap to 16777216.
The zenoh_utils.cpp construction does; the buffer_pool.cpp construction
reaches std::atoll("") = 0 and sets the cap to 0, using the default only when
reading the environment fails.  Both constructions map a set integer value to
that integer. -/
theorem C3_env_default_cap :
    zenohUtilsCtorMaxSize (some "") = 16777216 ∧
    bufferPoolCtorMaxSize (some "") = 0 ∧
    bufferPoolCtorMaxSize none = 16777216 ∧
    zenohUtilsCtorMaxSize none = 16777216 ∧
    bufferPoolCtorMaxSize (some "16777216") = 16777216 ∧
    zenohUtilsCtorMaxSize (some "12345") = 12345 ∧
    bufferPoolCtorMaxSize (some "12345") = 12345 := by
  refine ⟨rfl, rfl, rfl, rfl, ?_, ?_, ?_⟩ <;> decide

/-! ### C4 -/

/-- C4: over every bounded sequence of allocate and deallocate operations on
a pool with cap C, the capacities of outstanding plus pooled buffers total at
most C at every point (allocate returns the null buffer rather than exceed
the cap), and deallocate only pushes the released buffer onto the pool,
freeing nothing. -/
theorem C4_pool_cap_invariant (cap : Nat) (ops : List PoolOp)
    (hcap : cap < 2 ^ 63) (hops : ∀ op ∈ ops, op.sizeBounded) :
    (((PoolModel.init cap).run ops).pool.buffers.sum +
      ((PoolModel.init cap).run ops).outstanding.sum ≤ cap) ∧
    (∀ (s : BufferPool) (c : Nat), (s.deallocate c).buffers = c :: s.buffers ∧
      (s.deallocate c).size = s.size ∧ (s.deallocate c).maxSize = s.maxSize) := by
  constructor
  · have hinit : (PoolModel.init cap).Inv := by
      constructor <;> simp [PoolModel.init, BufferPool.init]
    obtain ⟨⟨h1, h2⟩, h3⟩ :=
      PoolModel.run_inv ops (PoolModel.init cap) hcap hops hinit
    have : ((PoolModel.init cap).run ops).pool.maxSize = cap := by
      rw [h3]; rfl
    omega
  · intro s c
    exact ⟨rfl, rfl, rfl⟩

/-- C4 witness: the invariant evaluated on a concrete trace: cap 16, allocate
8 (heap succeeds), release it, allocate 12 (grown in place), allocate 8
(refused: 12 outstanding + 8 > 16 would exceed the cap). -/
theorem C4_pool_cap_invariant_witness :
    ((16 : Nat) < 2 ^ 63) ∧
    (((PoolModel.init 16).run
        [PoolOp.alloc 8 true, PoolOp.dealloc 0, PoolOp.alloc 12 true,
         PoolOp.alloc 8 true]).pool.buffers.sum +
      ((PoolModel.init 16).run
        [PoolOp.alloc 8 true, PoolOp.dealloc 0, PoolOp.alloc 12 true,
         PoolOp.alloc 8 true]).outstanding.sum ≤ 16) :=
  ⟨by decide,
   (C4_pool_cap_invariant 16
     [PoolOp.alloc 8 true, PoolOp.dealloc 0, PoolOp.alloc 12 true,
      PoolOp.alloc 8 true]
     (by decide) (by decide)).1⟩

/-! ### C5 -/

/-- C5 counterexample: on a pool with cap 0, the claim says every allocate
call, including one of size 0, returns null; but allocate(0) passes the cap
check (0 + 0 > 0 is false) and returns whatever the heap gives, a non-null
zero-capacity buffer when the heap allocation succeeds (malloc(0) may return
non-null). -/
theorem C5_counterexample :
    ((BufferPool.init 0).allocate 0 true).1 ≠ none := by decide

/-- C5 amended: on a pool with cap 0 (in any state reachable by a bounded
trace), every allocate of size greater than 0 returns null; an allocate of
size 0 passes the cap check and returns a zero-capacity buffer whenever the
underlying heap allocation reports success. -/
theorem C5_amended_cap_zero (ops : List PoolOp)
    (hops : ∀ op ∈ ops, op.sizeBounded) (size : Nat) (heapOk : Bool)
    (hpos : 0 < size) (hsize : size < 2 ^ 63) :
    ((((PoolModel.init 0).run ops).pool.allocate size heapOk).1 = none ∧
     (((PoolModel.init 0).run ops).pool.allocate 0 true).1 = some 0) := by
  have hinit : (PoolModel.init 0).Inv := by
    constructor <;> simp [PoolModel.init, BufferPool.init]
  obtain ⟨⟨h1, h2⟩, h3⟩ :=
    PoolModel.run_inv ops (PoolModel.init 0)
      (by simp [PoolModel.init, BufferPool.init]) hops hinit
  set m := (PoolModel.init 0).run ops with hm
  have hmax : m.pool.maxSize = 0 := by rw [h3]; rfl
  have hsz : m.pool.size = 0 := by omega
  have hbuf : m.pool.buffers.sum = 0 := by omega
  constructor
  · cases hb : m.pool.buffers with
    | nil =>
      have : addSizeT m.pool.size size = size := by
        rw [hsz]
        unfold addSizeT SIZE_T_MOD
        rw [Nat.zero_add]
        exact Nat.mod_eq_of_lt (lt_trans hsize (by norm_num))
      simp [BufferPool.allocate, hb, this, hmax, hpos]
    | cons b rest =>
      have hb0 : b = 0 := by
        rw [hb] at hbuf
        simp at hbuf
        exact hbuf.1
      have hblt : b < size := by omega
      have : addSizeT m.pool.size (size - b) = size := by
        rw [hsz, hb0]
        unfold addSizeT SIZE_T_MOD
        rw [Nat.zero_add, Nat.sub_zero]
        exact Nat.mod_eq_of_lt (lt_trans hsize (by norm_num))
      simp [BufferPool.allocate, hb, hblt, this, hmax, hpos]
  · cases hb : m.pool.buffers with
    | nil =>
      have : addSizeT m.pool.size 0 = 0 := by
        rw [hsz]; rfl
      simp [BufferPool.allocate, hb, this, hmax]
    | cons b rest =>
      have hb0 : b = 0 := by
        rw [hb] at hbuf
        simp at hbuf
        exact hbuf.1
      simp [BufferPool.allocate, hb, hb0]

/-- C5 witness: the amended theorem applied after a concrete trace (an
allocate(0) that succeeded and was released, so the pool is non-empty). -/
theorem C5_amended_cap_zero_witness :
    ((((PoolModel.init 0).run [PoolOp.alloc 0 true, PoolOp.dealloc 0]).pool.allocate
        5 true).1 = none ∧
     (((PoolModel.init 0).run [PoolOp.alloc 0 true, PoolOp.dealloc 0]).pool.allocate
        0 true).1 = some 0) :=
  C5_amended_cap_zero [PoolOp.alloc 0 true, PoolOp.dealloc 0]
    (by decide) 5 true (by decide) (by decide)

/-! ### C10 -/

/-- C10: allocate is not atomic on failure.  In the empty-pool branch, when
the cap check passes but the heap allocation fails, allocate returns null
with size_ already increased by the requested size; in the grow branch a
failed reallocation leaves size_ unchanged; and no operation ever decreases
size_, so the consumed budget is never rolled back. -/
theorem C10_alloc_failure_budget (s : BufferPool) (size b : Nat)
    (rest : List Nat) (m : PoolModel) (op : PoolOp) :
    (s.buffers = [] → ¬ (addSizeT s.size size > s.maxSize) →
      (s.allocate size false).1 = none ∧
      (s.allocate size false).2.size = addSizeT s.size size) ∧
    (s.buffers = b :: rest → b < size →
      ¬ (addSizeT s.size (size - b) > s.maxSize) →
      (s.allocate size false).1 = none ∧
      (s.allocate size false).2.size = s.size) ∧
    (m.Inv → m.pool.maxSize < 2 ^ 63 → op.sizeBounded →
      m.pool.size ≤ (m.step op).pool.size) := by
  refine ⟨?_, ?_, ?_⟩
  · intro hb hcap
    simp [BufferPool.allocate, hb, hcap]
  · intro hb hlt hcap
    simp [BufferPool.allocate, hb, hlt, hcap]
  · intro hInv hmax hop
    obtain ⟨hsum, hsize⟩ := hInv
    have hs63 : m.pool.size < 2 ^ 63 := lt_of_le_of_lt hsize hmax
    cases op with
    | dealloc i =>
      cases hg : m.outstanding[i]? with
      | none => simp [PoolModel.step, hg]
      | some c => simp [PoolModel.step, hg, BufferPool.deallocate]
    | alloc sz heapOk =>
      have hsz : sz < 2 ^ 63 := hop
      cases hb : m.pool.buffers with
      | nil =>
        have hadd : addSizeT m.pool.size sz = m.pool.size + sz :=
          addSizeT_eq_add hs63 hsz
        by_cases hcap : m.pool.maxSize < addSizeT m.pool.size sz
        · simp [PoolModel.step, BufferPool.allocate, hb, hcap]
        · rw [hadd] at hcap
          cases heapOk <;>
            simp [PoolModel.step, BufferPool.allocate, hb, hcap, hadd]
      | cons c rest2 =>
        by_cases hlt : c < sz
        · have hadd : addSizeT m.pool.size (sz - c) = m.pool.size + (sz - c) :=
            addSizeT_eq_add hs63 (by omega)
          by_cases hcap : m.pool.maxSize < addSizeT m.pool.size (sz - c)
          · simp [PoolModel.step, BufferPool.allocate, hb, hlt, hcap]
          · rw [hadd] at hcap
            cases heapOk <;>
              simp [PoolModel.step, BufferPool.allocate, hb, hlt, hcap, hadd]
        · simp [PoolModel.step, BufferPool.allocate, hb, hlt]

/-- C10 witness: cap 16, empty pool with size_ = 0; a failed heap allocation
of 8 bytes returns null yet leaves size_ = 8; a failed grow of a released
4-buffer to 8 leaves size_ unchanged. -/
theorem C10_alloc_failure_budget_witness :
    (((BufferPool.init 16).allocate 8 false).1 = none ∧
     ((BufferPool.init 16).allocate 8 false).2.size = addSizeT 0 8) ∧
    ((BufferPool.mk [4] 4 16).allocate 8 false).1 = none ∧
    ((BufferPool.mk [4] 4 16).allocate 8 false).2.size = 4 := by
  refine ⟨?_, ?_⟩
  · exact (C10_alloc_failure_budget (BufferPool.init 16) 8 0 []
      (PoolModel.init 0) (PoolOp.dealloc 0)).1 rfl (by decide)
  · exact (C10_alloc_failure_budget (BufferPool.mk [4] 4 16) 8 4 []
      (PoolModel.init 0) (PoolOp.dealloc 0)).2.1 rfl (by decide) (by decide)

/-! ### Helper lemmas: events manager -/

/-- The changed flag after a run is determined by the operation sequence
alone: true exactly when an update follows the last take. -/
theorem EventStatus.run_changed (ops : List EventOp) (s : EventStatus) :
    (s.run ops).changed =
      ops.foldl
        (fun _ op =>
          match op with
          | EventOp.update _ => true
          | EventOp.take => false)
        s.changed := by
  induction ops generalizing s with
  | nil => rfl
  | cons op rest ih =>
    cases op with
    | update delta =>
      simp only [EventStatus.run, List.foldl_cons] at *
      exact ih (s.step (EventOp.update delta))
    | take =>
      simp only [EventStatus.run, List.foldl_cons] at *
      exact ih (s.step EventOp.take)

/-- If the changed flag is clear then both change fields are zero, preserved
by every run. -/
theorem EventStatus.run_not_changed (ops : List EventOp) (s : EventStatus)
    (h : s.changed = false → s.total_count_change = 0 ∧ s.current_count_change = 0) :
    (s.run ops).changed = false →
      (s.run ops).total_count_change = 0 ∧ (s.run ops).current_count_change = 0 := by
  induction ops generalizing s with
  | nil => exact h
  | cons op rest ih =>
    simp only [EventStatus.run, List.foldl_cons] at *
    apply ih
    cases op with
    | update delta =>
      intro hc
      simp [EventStatus.step, EventStatus.update] at hc
    | take =>
      intro _
      simp [EventStatus.step, EventStatus.take]

/-! ### C6 -/

/-- C6 counterexample: the claim states changed is true iff one of the change
fields is non-zero; but update_event_status with delta 0 on a fresh slot sets
changed to true while both change fields remain zero. -/
theorem C6_counterexample :
    (EventStatus.init.run [EventOp.update 0]).changed = true ∧
    (EventStatus.init.run [EventOp.update 0]).total_count_change = 0 ∧
    (EventStatus.init.run [EventOp.update 0]).current_count_change = 0 := by
  refine ⟨rfl, ?_, ?_⟩ <;> decide

/-- C6 amended: changed is true iff at least one update occurred since the
last take (update_event_status sets it unconditionally); consequently a
non-zero change field implies changed, and a take resets both change fields
and changed together while returning the pre-take snapshot — but an update
with delta 0 leaves changed true with both change fields zero. -/
theorem C6_amended_changed_flag (ops : List EventOp) (s : EventStatus) :
    ((EventStatus.init.run ops).changed = updateSinceLastTake ops) ∧
    (((EventStatus.init.run ops).total_count_change ≠ 0 ∨
      (EventStatus.init.run ops).current_count_change ≠ 0) →
      (EventStatus.init.run ops).changed = true) ∧
    ((s.take).2.total_count_change = 0 ∧ (s.take).2.current_count_change = 0 ∧
      (s.take).2.changed = false ∧ (s.take).1 = s) := by
  refine ⟨?_, ?_, rfl, rfl, rfl, rfl⟩
  · exact EventStatus.run_changed ops EventStatus.init
  · intro hne
    by_contra hc
    have hfalse : (EventStatus.init.run ops).changed = false := by
      cases hval : (EventStatus.init.run ops).changed with
      | true => exact absurd hval hc
      | false => rfl
    have := EventStatus.run_not_changed ops EventStatus.init (by intro _; exact ⟨rfl, rfl⟩) hfalse
    rcases hne with hne | hne <;> exact hne (by omega)

/-- C6 witness: the amended theorem applied to the one-update trace, where
the change fields are non-zero and changed is true. -/
theorem C6_amended_changed_flag_witness :
    ((EventStatus.init.run [EventOp.update 1]).changed =
      updateSinceLastTake [EventOp.update 1]) ∧
    (EventStatus.init.run [EventOp.update 1]).changed = true := by
  have h := C6_amended_changed_flag [EventOp.update 1] EventStatus.init
  exact ⟨h.1, h.2.1 (Or.inl (by decide))⟩

/-! ### Helper lemmas: subscription queue -/

/-- One step of the queue preserves depth, the length bound, the absence of
MESSAGE_LOST events, and the accounting identity drops + length + takes =
pushes, provided depth is at least 1. -/
theorem SubQueue.step_props (q : SubQueue) (op : QueueOp) (hD : 1 ≤ q.depth)
    (h : q.queue.length ≤ q.depth ∧ q.lostEvents = 0 ∧
      q.drops + q.queue.length + q.takes = q.pushes) :
    (q.step op).depth = q.depth ∧
    ((q.step op).queue.length ≤ (q.step op).depth ∧ (q.step op).lostEvents = 0 ∧
      (q.step op).drops + (q.step op).queue.length + (q.step op).takes =
        (q.step op).pushes) := by
  obtain ⟨hlen, hlost, hacct⟩ := h
  cases op with
  | push m =>
    by_cases hfull : q.queue.length ≥ q.depth
    · have hne : q.queue.length ≥ 1 := le_trans hD hfull
      refine ⟨?_, ?_, ?_, ?_⟩ <;>
        simp [SubQueue.step, SubQueue.push, hfull, List.length_dropLast, hlost] <;>
        omega
    · refine ⟨?_, ?_, ?_, ?_⟩ <;>
        simp [SubQueue.step, SubQueue.push, hfull, hlost] <;> omega
  | take =>
    cases hg : q.queue.getLast? with
    | none =>
      refine ⟨?_, ?_, ?_, ?_⟩ <;> simp [SubQueue.step, SubQueue.take, hg, hlost, hacct, hlen]
    | some m =>
      have hne : q.queue ≠ [] := by
        intro hnil
        rw [hnil] at hg
        simp at hg
      have hlen1 : 1 ≤ q.queue.length := by
        cases hq : q.queue with
        | nil => exact absurd hq hne
        | cons a t => simp [hq]
      refine ⟨?_, ?_, ?_, ?_⟩ <;>
        simp [SubQueue.step, SubQueue.take, hg, List.length_dropLast, hlost] <;> omega

/-- Running any push/take trace preserves the queue properties. -/
theorem SubQueue.run_props (ops : List QueueOp) (q : SubQueue) (hD : 1 ≤ q.depth)
    (h : q.queue.length ≤ q.depth ∧ q.lostEvents = 0 ∧
      q.drops + q.queue.length + q.takes = q.pushes) :
    (q.run ops).depth = q.depth ∧
    ((q.run ops).queue.length ≤ (q.run ops).depth ∧ (q.run ops).lostEvents = 0 ∧
      (q.run ops).drops + (q.run ops).queue.length + (q.run ops).takes =
        (q.run ops).pushes) := by
  induction ops generalizing q with
  | nil => exact ⟨rfl, h⟩
  | cons op rest ih =>
    obtain ⟨hdep, hprops⟩ := SubQueue.step_props q op hD h
    have := ih (q.step op) (hdep ▸ hD) hprops
    simp only [SubQueue.run, List.foldl_cons] at *
    exact ⟨this.1.trans hdep, this.2⟩

/-! ### C7 -/

/-- C7 counterexample: with depth 2 and three pushes, the oldest message is
dropped on the third push (a log warning only), yet zero MESSAGE_LOST events
are emitted while the claim demands max(0, pushes - D - takes) = 1 events
and an event on the overflow push. -/
theorem C7_counterexample :
    ((SubQueue.init 2).run [QueueOp.push 1, QueueOp.push 2, QueueOp.push 3]).queue
      = [3, 2] ∧
    ((SubQueue.init 2).run [QueueOp.push 1, QueueOp.push 2, QueueOp.push 3]).lostEvents
      = 0 ∧
    ((SubQueue.init 2).run [QueueOp.push 1, QueueOp.push 2, QueueOp.push 3]).lostEvents
      ≠ max 0 (3 - 2 - 0) := by
  refine ⟨?_, ?_, ?_⟩ <;> decide

/-- C7 amended: for every sequence of pushes and takes on a queue of depth
D ≥ 1, the queue length never exceeds D and the oldest element is dropped on
a full push, but only a log warning is produced: no MESSAGE_LOST event is
ever emitted (the event count stays 0, not max(0, pushes - D - takes)), and
the dropped-message count satisfies drops + length + takes = pushes. -/
theorem C7_amended_queue_bound (ops : List QueueOp) (D : Nat) (hD : 1 ≤ D) :
    ((SubQueue.init D).run ops).queue.length ≤ D ∧
    ((SubQueue.init D).run ops).lostEvents = 0 ∧
    ((SubQueue.init D).run ops).drops + ((SubQueue.init D).run ops).queue.length +
      ((SubQueue.init D).run ops).takes = ((SubQueue.init D).run ops).pushes := by
  have h0 : (SubQueue.init D).queue.length ≤ (SubQueue.init D).depth ∧
      (SubQueue.init D).lostEvents = 0 ∧
      (SubQueue.init D).drops + (SubQueue.init D).queue.length +
        (SubQueue.init D).takes = (SubQueue.init D).pushes := by
    simp [SubQueue.init]
  obtain ⟨hdep, h1, h2, h3⟩ := SubQueue.run_props ops (SubQueue.init D) hD h0
  have hDeq : ((SubQueue.init D).run ops).depth = D := hdep
  exact ⟨le_of_le_of_eq h1 hDeq, h2, h3⟩

/-- C7 witness: the amended theorem evaluated on the overflow trace of the
spec scenario (depth 2, four pushes, two takes). -/
theorem C7_amended_queue_bound_witness :
    ((1 : Nat) ≤ 2) ∧
    (((SubQueue.init 2).run
        [QueueOp.push 1, QueueOp.push 2, QueueOp.push 3, QueueOp.push 4,
         QueueOp.take, QueueOp.take]).queue.length ≤ 2 ∧
     ((SubQueue.init 2).run
        [QueueOp.push 1, QueueOp.push 2, QueueOp.push 3, QueueOp.push 4,
         QueueOp.take, QueueOp.take]).lostEvents = 0) := by
  have h := C7_amended_queue_bound
    [QueueOp.push 1, QueueOp.push 2, QueueOp.push 3, QueueOp.push 4,
     QueueOp.take, QueueOp.take] 2 (by decide)
  exact ⟨by decide, h.1, h.2.1⟩

/-! ### C8 -/

/-- C8: context shutdown always returns OK, and after a shutdown every
further shutdown call returns OK and leaves the whole context state (node
set, graph subscriber, SHM provider, shutdown flag, session) unchanged;
likewise, after a first successful NodeData shutdown every further call
returns OK and changes nothing. -/
theorem C8_shutdown_idempotent (s : ContextData) (oracle oracle2 : Nat → Bool)
    (n : NodeData) (ok ok2 : Bool) :
    ((s.shutdown oracle).1 = RmwRet.Ok) ∧
    (((s.shutdown oracle).2).shutdown oracle2 = (RmwRet.Ok, (s.shutdown oracle).2)) ∧
    ((n.shutdown ok).1 = RmwRet.Ok →
      ((n.shutdown ok).2).shutdown ok2 = (RmwRet.Ok, (n.shutdown ok).2)) := by
  refine ⟨?_, ?_, ?_⟩
  · by_cases hs : s.isShutdown <;> simp [ContextData.shutdown, hs]
  · by_cases hs : s.isShutdown
    · simp [ContextData.shutdown, hs]
    · simp [ContextData.shutdown, hs]
  · intro hok
    by_cases hn : n.isShutdown
    · simp [NodeData.shutdown, hn]
    · cases ok with
      | true => simp [NodeData.shutdown, hn]
      | false => simp [NodeData.shutdown, hn] at hok


/-- C8 witness: the theorem applied to a concrete context (one live node,
graph subscriber declared, SHM present, session open) and to a node whose
first shutdown succeeded. -/
theorem C8_shutdown_idempotent_witness :
    ((ContextData.mk [NodeData.mk false true] true (some ()) false
        (some ())).shutdown (fun _ => true)).1 = RmwRet.Ok ∧
    ((NodeData.mk false true).shutdown true).1 = RmwRet.Ok ∧
    (((NodeData.mk false true).shutdown true).2).shutdown false =
      (RmwRet.Ok, ((NodeData.mk false true).shutdown true).2) := by
  have h := C8_shutdown_idempotent
    (ContextData.mk [NodeData.mk false true] true (some ()) false (some ()))
    (fun _ => true) (fun _ => true) (NodeData.mk false true) true false
  exact ⟨h.1, by decide, h.2.2 (by decide)⟩

end RmwZenoh
